import Mathlib

/-!
# Verification of the incremental file-tailing and SSE streaming core

Shallow embedding of `src/logserver.py` (class `LogMonitor` and the
async generator `log_stream_generator`).

Modelling choices:
* File content is a `List Char`; one char = one byte (the monitored logs
  are plain ASCII text).  `os.path.getsize` is `List.length`, and
  `f.seek(last_size); f.read()` is `List.drop last_size`.
* Python `str.splitlines` is modelled for LF-terminated text (the log
  writers in this repository terminate every line with `"\n"`); further
  Unicode terminators recognised by Python do not occur in the pipeline.
* `LogMonitor.last_read_pos` (a Python dict) is an association list
  `List (String × Nat)` with the usual lookup / set / pop operations.
* `read_new_lines` is a pure state transformer returning the new monitor
  state together with the records queued by this call (the code appends
  them to `log_queue` via `put_nowait`, so the new queue is the old queue
  followed by the emitted records).  A transient `OSError` while sizing
  or reading the file is modelled by passing `none` as the file content.
* The single shared `asyncio.Queue` drained by `log_stream_generator` is
  a `List String`; `put_nowait` appends at the back, `get` removes at the
  front.  One loop iteration of the generator is `queueGet` followed by
  `emitFor`: when the queue is non-empty `get` returns the head at once,
  when it is empty the bounded wait either times out (`WaitResult.timedOut`),
  is cancelled (`WaitResult.cancelled`), or a record arrives during the
  wait (`WaitResult.got`).
-/

namespace LogServer

/-- Lookup in the `last_read_pos` dictionary: `self.last_read_pos.get(filepath)`. -/
def posLookup : List (String × Nat) → String → Option Nat
  | [], _ => none
  | (q, n) :: rest, p => if q = p then some n else posLookup rest p

/-- Store in the `last_read_pos` dictionary: `self.last_read_pos[filepath] = n`. -/
def posSet : List (String × Nat) → String → Nat → List (String × Nat)
  | [], p, n => [(p, n)]
  | (q, m) :: rest, p, n =>
    if q = p then (q, n) :: rest else (q, m) :: posSet rest p n

/-- Remove from the `last_read_pos` dictionary: `self.last_read_pos.pop(filepath, None)`. -/
def posErase : List (String × Nat) → String → List (String × Nat)
  | [], _ => []
  | (q, m) :: rest, p =>
    if q = p then posErase rest p else (q, m) :: posErase rest p

/-- `os.path.basename`, accumulator over the characters of the path. -/
def basenameChars : List Char → List Char → List Char
  | [], acc => acc.reverse
  | c :: rest, acc =>
    if c = '/' then basenameChars rest [] else basenameChars rest (c :: acc)

/-- `os.path.basename(filepath)`: the component after the last separator. -/
def basename (p : String) : String := String.mk (basenameChars p.data [])

/-- `str.splitlines`, accumulator form: split on `'\n'`; a trailing segment
with no terminator is still returned as a line (Python behaviour), while a
trailing terminator produces no extra empty line. -/
def splitlinesChars : List Char → List Char → List (List Char)
  | [], acc => if acc.isEmpty then [] else [acc.reverse]
  | c :: rest, acc =>
    if c = '\n' then acc.reverse :: splitlinesChars rest []
    else splitlinesChars rest (c :: acc)

/-- `new_content.splitlines()`. -/
def splitlines (s : List Char) : List (List Char) := splitlinesChars s []

/-- The tag the code prepends: `f"[{os.path.basename(filepath)}]"`. -/
def sourceTag (filepath : String) : String := "[" ++ basename filepath ++ "]"

/-- `full_log = f"[{os.path.basename(filepath)}] {line}"`. -/
def full_log (filepath : String) (line : List Char) : String :=
  sourceTag filepath ++ " " ++ String.mk line

/-- The mutable state of `LogMonitor`: the offset dictionary and the shared
ingestion queue. -/
structure MonitorState where
  last_read_pos : List (String × Nat)
  log_queue : List String
deriving DecidableEq, Repr

/-- `LogMonitor.read_new_lines(filepath)`.  `content` is what the file system
holds at `filepath` at the moment of the call; `none` models an `OSError`
(file vanished / permission denied) raised by `getsize`/`open`/`read`.
Returns the new monitor state and the records queued by this call. -/
def read_new_lines (st : MonitorState) (filepath : String)
    (content : Option (List Char)) : MonitorState × List String :=
  let last_size := (posLookup st.last_read_pos filepath).getD 0
  match content with
  | none =>
      ({ st with last_read_pos := posErase st.last_read_pos filepath }, [])
  | some c =>
      let current_size := c.length
      if last_size < current_size then
        let new_content := c.drop last_size
        let new_lines := splitlines new_content
        let records := (new_lines.filter (fun l => !l.isEmpty)).map (full_log filepath)
        ({ last_read_pos := posSet st.last_read_pos filepath current_size,
           log_queue := st.log_queue ++ records }, records)
      else if current_size < last_size then
        ({ st with last_read_pos := posSet st.last_read_pos filepath 0 }, [])
      else
        (st, [])

/-- The initial scan in `LogMonitor.__init__`: every accessible file found
under the monitored roots is entered with its current size; the queue starts
empty.  `files` lists the accessible files with their contents. -/
def initMonitor (files : List (String × List Char)) : MonitorState :=
  { last_read_pos := files.map (fun f => (f.1, f.2.length)), log_queue := [] }

/-- `queue.put_nowait(record)`: append at the back of the shared queue. -/
def publish (q : List String) (r : String) : List String := q ++ [r]

/-- SSE data frame: `f"data: {log_line}\n\n"`. -/
def mkDataFrame (log_line : String) : String := "data: " ++ log_line ++ "\n\n"

/-- SSE comment frame: `": keep-alive\n\n"`. -/
def keepAliveFrame : String := ": keep-alive\n\n"

/-- Outcome of `await asyncio.wait_for(log_monitor.log_queue.get(), timeout=5.0)`
as observed by one loop iteration of `log_stream_generator`. -/
inductive WaitResult where
  | got (line : String)
  | timedOut
  | cancelled
deriving DecidableEq, Repr

/-- `get` with bounded wait: a non-empty queue yields its head immediately;
on an empty queue the outcome is whatever happens during the wait
(`ifEmpty`): a record arriving, a timeout, or cancellation. -/
def queueGet (q : List String) (ifEmpty : WaitResult) : WaitResult × List String :=
  match q with
  | line :: rest => (WaitResult.got line, rest)
  | [] => (ifEmpty, [])

/-- What one iteration of `log_stream_generator` yields: a data frame on a
record, a keep-alive frame on timeout, nothing (the generator breaks) on
cancellation. -/
def emitFor : WaitResult → Option String
  | WaitResult.got line => some (mkDataFrame line)
  | WaitResult.timedOut => some keepAliveFrame
  | WaitResult.cancelled => none

/-- A run of `log_stream_generator` for one subscriber: `events` supplies, for
each loop iteration, the outcome of the wait in case the queue is empty at
that iteration.  Returns the frames pushed to the transport, in order. -/
def log_stream_run (q : List String) : List WaitResult → List String
  | [] => []
  | e :: es =>
    let step := queueGet q e
    match emitFor step.1 with
    | none => []
    | some frame => frame :: log_stream_run step.2 es

/-- Two subscriber sessions draining the one shared queue concurrently:
`turns` says, for each successive record in the queue, which session's
pending `get` wins it (`true` = first session).  Returns the frame sequences
the two sessions push.  The run ends when the queue is exhausted or the
schedule runs out. -/
def two_subscriber_run : List String → List Bool → List String × List String
  | [], _ => ([], [])
  | _, [] => ([], [])
  | line :: rest, turn :: turns =>
    let p := two_subscriber_run rest turns
    if turn then (mkDataFrame line :: p.1, p.2) else (p.1, mkDataFrame line :: p.2)

/-- Reassemble the two sessions' frame sequences in schedule order. -/
def mergeTurns : List Bool → List String → List String → List String
  | [], _, _ => []
  | t :: ts, a, b =>
    if t then
      match a with
      | [] => []
      | x :: a2 => x :: mergeTurns ts a2 b
    else
      match b with
      | [] => []
      | y :: b2 => y :: mergeTurns ts a b2

/-! ## Dictionary lemmas -/

theorem posLookup_posSet_self (l : List (String × Nat)) (p : String) (n : Nat) :
    posLookup (posSet l p n) p = some n := by
  induction l with
  | nil => simp [posSet, posLookup]
  | cons hd tl ih =>
    obtain ⟨q, m⟩ := hd
    by_cases h : q = p
    · simp [posSet, posLookup, h]
    · simp [posSet, posLookup, h, ih]

theorem posLookup_posErase_self (l : List (String × Nat)) (p : String) :
    posLookup (posErase l p) p = none := by
  induction l with
  | nil => simp [posErase, posLookup]
  | cons hd tl ih =>
    obtain ⟨q, m⟩ := hd
    by_cases h : q = p
    · simp [posErase, posLookup, h, ih]
    · simp [posErase, posLookup, h, ih]

theorem posLookup_posErase_ne (l : List (String × Nat)) (p r : String) (h : r ≠ p) :
    posLookup (posErase l p) r = posLookup l r := by
  induction l with
  | nil => simp [posErase]
  | cons hd tl ih =>
    obtain ⟨q, m⟩ := hd
    by_cases hq : q = p
    · subst hq
      have hqr : ¬q = r := fun e => h e.symm
      simp [posErase, posLookup, hqr, ih]
    · by_cases hr : q = r
      · subst hr
        simp [posErase, posLookup, hq]
      · simp [posErase, posLookup, hq, hr, ih]

/-! ## Claim C1 -/

/-- C1 counterexample: the claim says the trailing unterminated segment is
never emitted and the offset is advanced only to the end of the last complete
line.  On a file tracked at offset 0 growing to the three bytes `"wor"`
(no terminator anywhere, so the last complete line ends at offset 0), the
code emits the record `"[app.log] wor"` for the unterminated segment and
advances the offset to 3, the full file size. -/
theorem trailing_segment_emitted_cex :
    (read_new_lines ⟨[("logs/app.log", 0)], []⟩ "logs/app.log"
        (some "wor".data)).2 = ["[app.log] wor"] ∧
    posLookup (read_new_lines ⟨[("logs/app.log", 0)], []⟩ "logs/app.log"
        (some "wor".data)).1.last_read_pos "logs/app.log" = some 3 := by
  refine ⟨?_, ?_⟩ <;> decide

/-- C1 amended: on a growth call the extractor emits a record for every
non-empty line segment of the newly appended bytes — including the trailing
unterminated segment, which `splitlines` returns like any complete line —
and the tracked offset is advanced to the full file size, so a half-written
line is emitted immediately in pieces, not whole on a later call. -/
theorem read_new_lines_growth_spec (st : MonitorState) (p : String)
    (old app : List Char)
    (hpos : posLookup st.last_read_pos p = some old.length)
    (happ : app ≠ []) :
    (read_new_lines st p (some (old ++ app))).2
        = ((splitlines app).filter (fun l => !l.isEmpty)).map (full_log p) ∧
    posLookup (read_new_lines st p (some (old ++ app))).1.last_read_pos p
        = some (old ++ app).length := by
  have hlt : old.length < (old ++ app).length := by
    have : 0 < app.length := List.length_pos.mpr happ
    simp only [List.length_append]
    omega
  have hdrop : (old ++ app).drop old.length = app := List.drop_left old app
  have h0 : 0 < app.length := List.length_pos.mpr happ
  refine ⟨?_, ?_⟩
  · simp [read_new_lines, hpos, Option.getD_some, if_pos hlt, hdrop, h0]
  · simp only [read_new_lines, hpos, Option.getD_some, if_pos hlt]
    exact posLookup_posSet_self _ _ _

/-- C1 witness. -/
theorem read_new_lines_growth_spec_witness :
    posLookup (MonitorState.mk [("logs/app.log", 6)] []).last_read_pos
        "logs/app.log" = some "hello\n".data.length ∧
    "wor".data ≠ [] ∧
    ((read_new_lines ⟨[("logs/app.log", 6)], []⟩ "logs/app.log"
        (some ("hello\n".data ++ "wor".data))).2
          = ((splitlines "wor".data).filter (fun l => !l.isEmpty)).map
              (full_log "logs/app.log") ∧
      posLookup (read_new_lines ⟨[("logs/app.log", 6)], []⟩ "logs/app.log"
          (some ("hello\n".data ++ "wor".data))).1.last_read_pos "logs/app.log"
        = some ("hello\n".data ++ "wor".data).length) :=
  ⟨by decide, by decide,
    read_new_lines_growth_spec ⟨[("logs/app.log", 6)], []⟩ "logs/app.log"
      "hello\n".data "wor".data (by decide) (by decide)⟩

/-! ## Claim C2 -/

/-- C2 counterexample: the claim says that, after `"hello\n"` was consumed,
appending `"wor"` (no newline) yields zero records.  In the state left by the
first call (offset 6), the call on the grown file `"hello\nwor"` emits one
record, `"[app.log] wor"`. -/
theorem scenario_unterminated_append_cex :
    (read_new_lines ⟨[("logs/app.log", 6)], ["[app.log] hello"]⟩ "logs/app.log"
        (some "hello\nwor".data)).2 = ["[app.log] wor"] ∧
    (read_new_lines ⟨[("logs/app.log", 6)], ["[app.log] hello"]⟩ "logs/app.log"
        (some "hello\nwor".data)).2 ≠ [] := by
  refine ⟨?_, ?_⟩ <;> decide

/-- C2 amended: file starts at 0 bytes; appending `"hello\n"` yields one
record `"[app.log] hello"`; appending `"wor"` (no newline) yields one record
`"[app.log] wor"` (the unterminated segment is emitted immediately);
appending `"ld\n"` yields one record `"[app.log] ld"` (never `"world"`,
since the offset already advanced past `"wor"`). -/
theorem scenario_hello_world :
    (read_new_lines ⟨[("logs/app.log", 0)], []⟩ "logs/app.log"
        (some "hello\n".data)).2 = ["[app.log] hello"] ∧
    (read_new_lines
        (read_new_lines ⟨[("logs/app.log", 0)], []⟩ "logs/app.log"
          (some "hello\n".data)).1 "logs/app.log"
        (some "hello\nwor".data)).2 = ["[app.log] wor"] ∧
    (read_new_lines
        (read_new_lines
          (read_new_lines ⟨[("logs/app.log", 0)], []⟩ "logs/app.log"
            (some "hello\n".data)).1 "logs/app.log"
          (some "hello\nwor".data)).1 "logs/app.log"
        (some "hello\nworld\n".data)).2 = ["[app.log] ld"] := by
  refine ⟨?_, ?_, ?_⟩ <;> decide

/-! ## Claim C3 -/

theorem foldl_publish (rs acc : List String) :
    rs.foldl publish acc = acc ++ rs := by
  induction rs generalizing acc with
  | nil => simp
  | cons r rest ih => simp [publish, ih]

theorem log_stream_run_drain (q : List String) (es : List WaitResult)
    (h : q.length ≤ es.length) :
    log_stream_run q es
      = q.map mkDataFrame ++ log_stream_run [] (es.drop q.length) := by
  induction q generalizing es with
  | nil => simp
  | cons r rest ih =>
    cases es with
    | nil => simp at h
    | cons e es2 =>
      have h2 : rest.length ≤ es2.length := by simpa using h
      simp [log_stream_run, queueGet, emitFor, ih es2 h2]

/-- C3 counterexample: the claim says a record published while zero
subscribers are registered is dropped and a later subscriber never receives
it.  In the code all records go into the one module-level `asyncio.Queue`:
a record published with no generator attached stays queued, and the first
`get` of a subscriber that attaches afterwards returns it, so that
subscriber's very first frame is the data frame of the pre-attachment
record. -/
theorem late_subscriber_receives_backlog_cex :
    log_stream_run (publish [] "[app.log] hello") [WaitResult.timedOut]
      = [mkDataFrame "[app.log] hello"] := by decide

/-- C3 amended: records published while zero subscribers are attached are
buffered in the shared queue, not dropped; a subscriber that attaches after
N records were published receives exactly those N records, oldest first, as
its first N frames. -/
theorem late_subscriber_receives_backlog (rs : List String) :
    log_stream_run (rs.foldl publish [])
        (rs.map (fun _ => WaitResult.timedOut))
      = rs.map mkDataFrame := by
  rw [foldl_publish, List.nil_append]
  have h : rs.length ≤ (rs.map (fun _ => WaitResult.timedOut)).length := by simp
  rw [log_stream_run_drain rs _ h]
  have hd : (rs.map (fun _ => WaitResult.timedOut)).drop rs.length = [] := by
    apply List.drop_eq_nil_of_le
    simp
  rw [hd]
  simp [log_stream_run]

/-! ## Claim C4 -/

/-- C4 counterexample: the claim says a published record is delivered to
both concurrently attached subscribers and the two receive identical
sequences.  With the single shared queue holding two records, two attached
generators competing for `get` split them: the first session receives only
record `a`, the second only record `b` — record `a` never reaches the
second session and the two sequences differ. -/
theorem two_subscribers_partition_cex :
    two_subscriber_run ["[app.log] a", "[app.log] b"] [true, false]
      = (["data: [app.log] a\n\n"], ["data: [app.log] b\n\n"]) ∧
    (two_subscriber_run ["[app.log] a", "[app.log] b"] [true, false]).1
      ≠ (two_subscriber_run ["[app.log] a", "[app.log] b"] [true, false]).2 := by
  refine ⟨?_, ?_⟩ <;> decide

/-- C4 amended: each record in the shared queue is delivered to exactly one
of the two concurrently attached subscribers — whichever the scheduler wakes
first — so the two sessions partition the record sequence between them:
interleaving their frame sequences back in schedule order gives the data
frames of the consumed records, and their lengths sum to the number of
consumed records. -/
theorem two_subscribers_partition (q : List String) (turns : List Bool)
    (h : turns.length ≤ q.length) :
    mergeTurns turns (two_subscriber_run q turns).1
        (two_subscriber_run q turns).2
      = (q.take turns.length).map mkDataFrame ∧
    (two_subscriber_run q turns).1.length
        + (two_subscriber_run q turns).2.length = turns.length := by
  induction turns generalizing q with
  | nil =>
    cases q <;> simp [two_subscriber_run, mergeTurns]
  | cons t ts ih =>
    cases q with
    | nil => simp at h
    | cons line rest =>
      have h2 : ts.length ≤ rest.length := by simpa using h
      obtain ⟨ih1, ih2⟩ := ih rest h2
      cases t with
      | true =>
        refine ⟨by simp [two_subscriber_run, mergeTurns, ih1], ?_⟩
        simp [two_subscriber_run]
        omega
      | false =>
        refine ⟨by simp [two_subscriber_run, mergeTurns, ih1], ?_⟩
        simp [two_subscriber_run]
        omega

/-- C4 witness. -/
theorem two_subscribers_partition_witness :
    [true].length ≤ ["[app.log] a"].length ∧
    (mergeTurns [true] (two_subscriber_run ["[app.log] a"] [true]).1
        (two_subscriber_run ["[app.log] a"] [true]).2
      = (["[app.log] a"].take [true].length).map mkDataFrame ∧
    (two_subscriber_run ["[app.log] a"] [true]).1.length
        + (two_subscriber_run ["[app.log] a"] [true]).2.length
      = [true].length) :=
  ⟨by decide, two_subscribers_partition ["[app.log] a"] [true] (by decide)⟩

/-! ## Claim C5 -/

/-- C5 counterexample: the claim says the offset used for the first
extraction of a freshly seen path is the file's current size, never 0, so
pre-existing content is not emitted.  For a path absent from the tracking
map (first seen via an event, or dropped earlier after an I/O error),
`last_read_pos.get(filepath, 0)` defaults to 0, so the call on a file
containing `"abc\n"` emits the pre-existing line. -/
theorem untracked_path_replays_cex :
    (read_new_lines ⟨[], []⟩ "logs/app.log" (some "abc\n".data)).2
      = ["[app.log] abc"] := by decide

/-- C5 amended: only paths present at the initial scan start at their
current size; a path not in the tracking map when an extraction call hits
it — a path first seen via an event, or one whose entry was dropped after an
I/O error — is read from offset 0, so all of its pre-existing complete
non-empty lines are emitted and its offset becomes the file size. -/
theorem first_sight_offset (st : MonitorState) (p : String) (c : List Char)
    (hp : posLookup st.last_read_pos p = none) (hc : c ≠ []) :
    ((read_new_lines st p (some c)).2
        = ((splitlines c).filter (fun l => !l.isEmpty)).map (full_log p) ∧
      posLookup (read_new_lines st p (some c)).1.last_read_pos p
        = some c.length) ∧
    read_new_lines (initMonitor [("logs/app.log", "hello\n".data)])
        "logs/app.log" (some "hello\n".data)
      = (initMonitor [("logs/app.log", "hello\n".data)], []) := by
  have h0 : 0 < c.length := List.length_pos.mpr hc
  refine ⟨⟨?_, ?_⟩, by decide⟩
  · simp [read_new_lines, hp, h0]
  · simp only [read_new_lines, hp, Option.getD_none, if_pos h0]
    exact posLookup_posSet_self _ _ _

/-- C5 witness. -/
theorem first_sight_offset_witness :
    posLookup (MonitorState.mk [] []).last_read_pos "logs/app.log" = none ∧
    "abc\n".data ≠ [] ∧
    (((read_new_lines ⟨[], []⟩ "logs/app.log" (some "abc\n".data)).2
        = ((splitlines "abc\n".data).filter (fun l => !l.isEmpty)).map
            (full_log "logs/app.log") ∧
      posLookup (read_new_lines ⟨[], []⟩ "logs/app.log"
          (some "abc\n".data)).1.last_read_pos "logs/app.log"
        = some "abc\n".data.length) ∧
    read_new_lines (initMonitor [("logs/app.log", "hello\n".data)])
        "logs/app.log" (some "hello\n".data)
      = (initMonitor [("logs/app.log", "hello\n".data)], [])) :=
  ⟨by decide, by decide,
    first_sight_offset ⟨[], []⟩ "logs/app.log" "abc\n".data (by decide) (by decide)⟩

/-! ## Claim C6 -/

/-- C6 (confirmed): when the measured size is strictly below the tracked
offset, `read_new_lines` emits zero records, queues nothing, and resets the
tracked offset to exactly 0 — not to the new smaller size. -/
theorem truncation_resets_to_zero (st : MonitorState) (p : String)
    (c : List Char)
    (h : c.length < (posLookup st.last_read_pos p).getD 0) :
    (read_new_lines st p (some c)).2 = [] ∧
    posLookup (read_new_lines st p (some c)).1.last_read_pos p = some 0 ∧
    (read_new_lines st p (some c)).1.log_queue = st.log_queue := by
  have hngt : ¬((posLookup st.last_read_pos p).getD 0 < c.length) := by omega
  refine ⟨?_, ?_, ?_⟩
  · simp [read_new_lines, hngt, h]
  · simp only [read_new_lines, if_neg hngt, if_pos h]
    exact posLookup_posSet_self _ _ _
  · simp [read_new_lines, hngt, h]

/-- C6 witness: a file of 3 bytes tracked at offset 5. -/
theorem truncation_resets_to_zero_witness :
    "ab\n".data.length
        < (posLookup (MonitorState.mk [("logs/app.log", 5)] []).last_read_pos
            "logs/app.log").getD 0 ∧
    ((read_new_lines ⟨[("logs/app.log", 5)], []⟩ "logs/app.log"
        (some "ab\n".data)).2 = [] ∧
      posLookup (read_new_lines ⟨[("logs/app.log", 5)], []⟩ "logs/app.log"
          (some "ab\n".data)).1.last_read_pos "logs/app.log" = some 0 ∧
      (read_new_lines ⟨[("logs/app.log", 5)], []⟩ "logs/app.log"
          (some "ab\n".data)).1.log_queue = []) :=
  ⟨by decide,
    truncation_resets_to_zero ⟨[("logs/app.log", 5)], []⟩ "logs/app.log"
      "ab\n".data (by decide)⟩

/-! ## Claim C7 -/

/-- C7 counterexample: the claim says a second extraction call with no
intervening growth yields zero records and a no-growth call leaves the
tracked offset unchanged.  With the file truncated to `"ab\n"` (3 bytes)
while tracked at offset 5, the file never grows between the two calls, yet
the first call moves the offset from 5 to 0 and the second call, seeing
3 > 0, emits the record `"[app.log] ab"`. -/
theorem second_call_after_truncation_cex :
    (read_new_lines ⟨[("logs/app.log", 5)], []⟩ "logs/app.log"
        (some "ab\n".data)).2 = [] ∧
    posLookup (read_new_lines ⟨[("logs/app.log", 5)], []⟩ "logs/app.log"
        (some "ab\n".data)).1.last_read_pos "logs/app.log" ≠ some 5 ∧
    (read_new_lines
        (read_new_lines ⟨[("logs/app.log", 5)], []⟩ "logs/app.log"
          (some "ab\n".data)).1 "logs/app.log"
        (some "ab\n".data)).2 = ["[app.log] ab"] := by
  refine ⟨?_, ?_, ?_⟩ <;> decide

/-- C7 amended: redundant calls are safe only while the file has not shrunk
below the tracked offset: if the size is at least the tracked offset, a
second call on unchanged content yields zero records and leaves the state
exactly as the first call left it; and a call whose size equals the tracked
offset is a complete no-op.  (After a truncation the offset is reset to 0,
so a repeated call on the same non-empty content re-emits it.) -/
theorem no_growth_idempotent (st : MonitorState) (p : String) (c : List Char)
    (h : (posLookup st.last_read_pos p).getD 0 ≤ c.length) :
    read_new_lines (read_new_lines st p (some c)).1 p (some c)
        = ((read_new_lines st p (some c)).1, []) ∧
    (c.length = (posLookup st.last_read_pos p).getD 0 →
      read_new_lines st p (some c) = (st, [])) := by
  have heq : ∀ st2 : MonitorState,
      posLookup st2.last_read_pos p = some c.length →
      read_new_lines st2 p (some c) = (st2, []) := by
    intro st2 h2
    simp [read_new_lines, h2]
  rcases Nat.lt_or_ge ((posLookup st.last_read_pos p).getD 0) c.length with hlt | hge
  · constructor
    · apply heq
      simp only [read_new_lines, if_pos hlt]
      exact posLookup_posSet_self _ _ _
    · intro he
      omega
  · have he : c.length = (posLookup st.last_read_pos p).getD 0 := by omega
    have hfst : read_new_lines st p (some c) = (st, []) := by
      have hngt : ¬((posLookup st.last_read_pos p).getD 0 < c.length) := by omega
      have hnlt : ¬(c.length < (posLookup st.last_read_pos p).getD 0) := by omega
      simp [read_new_lines, hngt, hnlt]
    refine ⟨?_, fun _ => hfst⟩
    rw [hfst]
    exact hfst

/-- C7 witness: empty tracking for the path (offset defaults to 0), file
grows to `"ab\n"`; the second call is a no-op. -/
theorem no_growth_idempotent_witness :
    (posLookup (MonitorState.mk [("logs/app.log", 0)] []).last_read_pos
        "logs/app.log").getD 0 ≤ "ab\n".data.length ∧
    (read_new_lines
        (read_new_lines ⟨[("logs/app.log", 0)], []⟩ "logs/app.log"
          (some "ab\n".data)).1 "logs/app.log" (some "ab\n".data)
        = ((read_new_lines ⟨[("logs/app.log", 0)], []⟩ "logs/app.log"
            (some "ab\n".data)).1, []) ∧
      ("ab\n".data.length
          = (posLookup (MonitorState.mk [("logs/app.log", 0)] []).last_read_pos
              "logs/app.log").getD 0 →
        read_new_lines ⟨[("logs/app.log", 0)], []⟩ "logs/app.log"
            (some "ab\n".data)
          = (⟨[("logs/app.log", 0)], []⟩, []))) :=
  ⟨by decide,
    no_growth_idempotent ⟨[("logs/app.log", 0)], []⟩ "logs/app.log"
      "ab\n".data (by decide)⟩

/-! ## Claim C8 -/

theorem log_stream_run_frames (es : List WaitResult) : ∀ (q : List String),
    (∀ r ∈ q, ∃ p line, r = full_log p line) →
    (∀ s, WaitResult.got s ∈ es → ∃ p line, s = full_log p line) →
    ∀ f ∈ log_stream_run q es,
      (∃ p text, f = "data: " ++ (sourceTag p ++ " " ++ text) ++ "\n\n") ∨
      f = keepAliveFrame := by
  induction es with
  | nil =>
    intro q hq hes f hf
    simp [log_stream_run] at hf
  | cons e es2 ih =>
    intro q hq hes f hf
    cases q with
    | cons r rest =>
      have hrun : log_stream_run (r :: rest) (e :: es2)
          = mkDataFrame r :: log_stream_run rest es2 := rfl
      rw [hrun] at hf
      rcases List.mem_cons.mp hf with hfe | hfm
      · obtain ⟨p, line, hpl⟩ := hq r (List.mem_cons_self _ _)
        exact Or.inl ⟨p, String.mk line, by rw [hfe, hpl]; rfl⟩
      · exact ih rest (fun r2 h2 => hq r2 (List.mem_cons_of_mem _ h2))
          (fun s hs => hes s (List.mem_cons_of_mem _ hs)) f hfm
    | nil =>
      cases e with
      | got s =>
        have hrun : log_stream_run [] (WaitResult.got s :: es2)
            = mkDataFrame s :: log_stream_run [] es2 := rfl
        rw [hrun] at hf
        rcases List.mem_cons.mp hf with hfe | hfm
        · obtain ⟨p, line, hpl⟩ := hes s (List.mem_cons_self _ _)
          exact Or.inl ⟨p, String.mk line, by rw [hfe, hpl]; rfl⟩
        · exact ih [] (by simp)
            (fun s2 hs => hes s2 (List.mem_cons_of_mem _ hs)) f hfm
      | timedOut =>
        have hrun : log_stream_run [] (WaitResult.timedOut :: es2)
            = keepAliveFrame :: log_stream_run [] es2 := rfl
        rw [hrun] at hf
        rcases List.mem_cons.mp hf with hfe | hfm
        · exact Or.inr hfe
        · exact ih [] (by simp)
            (fun s2 hs => hes s2 (List.mem_cons_of_mem _ hs)) f hfm
      | cancelled =>
        have hrun : log_stream_run [] (WaitResult.cancelled :: es2) = [] := rfl
        rw [hrun] at hf
        simp at hf

/-- C8 (confirmed): in a streaming session whose queue holds only records
produced by the extractor (`full_log` strings, i.e. `sourceTag ++ " " ++ text`,
also for records arriving during a wait), every emitted unit is either a
data frame `"data: " ++ sourceTag ++ " " ++ text ++ "\n\n"` or the
keep-alive frame `": keep-alive\n\n"`; and a bounded-wait timeout on an
empty queue emits exactly the keep-alive frame and the session keeps
streaming (the run continues, it does not terminate). -/
theorem stream_frames_shape (q : List String) (es : List WaitResult)
    (hq : ∀ r ∈ q, ∃ p line, r = full_log p line)
    (hes : ∀ s, WaitResult.got s ∈ es → ∃ p line, s = full_log p line) :
    (∀ f ∈ log_stream_run q es,
        (∃ p text, f = "data: " ++ (sourceTag p ++ " " ++ text) ++ "\n\n") ∨
        f = keepAliveFrame) ∧
    ∀ es2, log_stream_run [] (WaitResult.timedOut :: es2)
        = keepAliveFrame :: log_stream_run [] es2 :=
  ⟨log_stream_run_frames es q hq hes, fun _ => rfl⟩

/-- C8 witness. -/
theorem stream_frames_shape_witness :
    (∃ p text, "data: [app.log] hi\n\n"
        = "data: " ++ (sourceTag p ++ " " ++ text) ++ "\n\n") ∨
    "data: [app.log] hi\n\n" = keepAliveFrame :=
  (stream_frames_shape [full_log "logs/app.log" ['h', 'i']]
      [WaitResult.timedOut]
      (fun r hr => ⟨"logs/app.log", ['h', 'i'], by simpa using hr⟩)
      (fun s hs => by simp at hs)).1
    "data: [app.log] hi\n\n" (by decide)

/-! ## Claim C9 -/

/-- C9 (confirmed): an `OSError` during extraction makes the call emit zero
records, leave the queue untouched, remove the failing path's offset entry
from the tracking map, and leave the tracked offset of every other path
unchanged — the failure is local to that path. -/
theorem io_error_stops_tracking (st : MonitorState) (p : String) :
    (read_new_lines st p none).2 = [] ∧
    (read_new_lines st p none).1.log_queue = st.log_queue ∧
    posLookup (read_new_lines st p none).1.last_read_pos p = none ∧
    ∀ r, r ≠ p →
      posLookup (read_new_lines st p none).1.last_read_pos r
        = posLookup st.last_read_pos r := by
  refine ⟨rfl, rfl, ?_, ?_⟩
  · exact posLookup_posErase_self st.last_read_pos p
  · intro r hr
    exact posLookup_posErase_ne st.last_read_pos p r hr

/-- C9 witness: the error on `app.log` leaves `other.log`'s offset intact. -/
theorem io_error_stops_tracking_witness :
    posLookup (read_new_lines
        ⟨[("logs/app.log", 6), ("logs/other.log", 3)], []⟩
        "logs/app.log" none).1.last_read_pos "logs/other.log"
      = posLookup (MonitorState.mk
          [("logs/app.log", 6), ("logs/other.log", 3)] []).last_read_pos
          "logs/other.log" :=
  (io_error_stops_tracking
      ⟨[("logs/app.log", 6), ("logs/other.log", 3)], []⟩
      "logs/app.log").2.2.2 "logs/other.log" (by decide)

/-! ## Claim C10 -/

theorem read_new_lines_snd_cases (st : MonitorState) (p : String)
    (cc : List Char) :
    (read_new_lines st p (some cc)).2 = [] ∨
    (read_new_lines st p (some cc)).2
      = ((splitlines
            (cc.drop ((posLookup st.last_read_pos p).getD 0))).filter
          (fun l => !l.isEmpty)).map (full_log p) := by
  by_cases h : (posLookup st.last_read_pos p).getD 0 < cc.length
  · right
    simp [read_new_lines, h]
  · left
    by_cases h2 : cc.length < (posLookup st.last_read_pos p).getD 0 <;>
      simp [read_new_lines, h, h2]

/-- C10 (confirmed): the `if line:` filter silently drops every empty line
segment — a record is only ever produced for a non-empty line, so a bare
terminator in the appended bytes yields no LogRecord; concretely, appending
`"a\n\nb\n"` to an empty tracked file yields exactly the two records for
`"a"` and `"b"` and nothing for the blank line between them. -/
theorem empty_lines_dropped (st : MonitorState) (p : String)
    (c : Option (List Char)) :
    (∀ r ∈ (read_new_lines st p c).2,
        ∃ line, line ≠ [] ∧ r = full_log p line) ∧
    (read_new_lines ⟨[("logs/app.log", 0)], []⟩ "logs/app.log"
        (some "a\n\nb\n".data)).2 = ["[app.log] a", "[app.log] b"] := by
  refine ⟨?_, by decide⟩
  intro r hr
  match c with
  | none => simp [read_new_lines] at hr
  | some cc =>
    rcases read_new_lines_snd_cases st p cc with he | he
    · rw [he] at hr
      simp at hr
    · rw [he] at hr
      obtain ⟨l, hl, hrl⟩ := List.mem_map.mp hr
      obtain ⟨-, hbl⟩ := List.mem_filter.mp hl
      refine ⟨l, ?_, hrl.symm⟩
      intro hnil
      rw [hnil] at hbl
      simp at hbl

/-- C10 witness. -/
theorem empty_lines_dropped_witness :
    ∃ line, line ≠ [] ∧ "[app.log] a" = full_log "logs/app.log" line :=
  (empty_lines_dropped ⟨[("logs/app.log", 0)], []⟩ "logs/app.log"
      (some "a\n\nb\n".data)).1 "[app.log] a" (by decide)

end LogServer
